import Mathlib

/-!
Verification of the catalog browsing / selection-queue widget
(`src/js/widget.js` and `src/unnamed/part_000`).

The development shallowly embeds the widget's state object and the
state-mutating functions that the specification describes.  JavaScript
values that may be `undefined` are embedded as `Option`; JavaScript
truthiness (`x || y`) on strings and numbers is embedded explicitly,
since `""`, `0`, `null` and `undefined` are all falsy in the source.
DOM rendering, HTTP transport and the host SDK are outside the model:
remote responses appear as explicit parameters, and issued remote
requests appear as explicit result components.
-/

/-- JavaScript truthiness of a possibly-`undefined` string: `undefined`
and `""` are falsy, every other string is truthy. -/
def jsTruthyS : Option String → Bool
  | none => false
  | some s => !(s == "")

/-- JavaScript `a || b` for possibly-`undefined` strings. -/
def jsOrS (a b : Option String) : Option String :=
  if jsTruthyS a then a else b

/-- JavaScript `a || b` where the fallback `b` is a definite string, as in
`product.vendorName || state.manufacturer`; the result is a definite string. -/
def jsOrStr (a : Option String) (b : String) : String :=
  if jsTruthyS a then a.getD "" else b

/-- JavaScript truthiness of a possibly-`undefined` number (prices):
`undefined` and `0` are falsy. -/
def jsTruthyQ : Option ℚ → Bool
  | none => false
  | some v => !(v == 0)

/-- JavaScript `a || b` for possibly-`undefined` numbers. -/
def jsOrQ (a b : Option ℚ) : Option ℚ :=
  if jsTruthyQ a then a else b

/-- JavaScript `.trim()`: strip leading and trailing whitespace.  The
built-in `String.trim` is not used because the embedding keeps string
functions kernel-reducible. -/
def jsTrim (s : String) : String :=
  ⟨((s.data.dropWhile Char.isWhitespace).reverse.dropWhile Char.isWhitespace).reverse⟩

/-- The `pricing` sub-object of a pricing record (`pricingData.pricing`);
only `retailPrice` is consumed by the embedded functions. -/
structure Pricing where
  retailPrice : Option ℚ
deriving DecidableEq

/-- A pricing record as attached to products by the combined
`productsWithPricing` endpoint and cached in `state.pricingData`. -/
structure PricingRecord where
  pricing : Option Pricing
  upc : Option String
  description : Option String
deriving DecidableEq

/-- JavaScript `a || b` for possibly-`undefined` pricing-record objects:
an object is always truthy, so only `undefined` falls through. -/
def jsOrPR (a b : Option PricingRecord) : Option PricingRecord :=
  if a.isSome then a else b

/-- A catalog product, with the fields the widget reads.  Every field may
be `undefined` in the remote JSON. -/
structure Product where
  ingramPartNumber : Option String
  vendorPartNumber : Option String
  description : Option String
  extraDescription : Option String
  vendorName : Option String
  category : Option String
  subCategory : Option String
  upcCode : Option String
  retailPrice : Option ℚ
  pricingData : Option PricingRecord
deriving DecidableEq

/-- The product with every field `undefined`; base for building test data. -/
def emptyProduct : Product :=
  ⟨none, none, none, none, none, none, none, none, none, none⟩

/-- Product identity, used everywhere in the source:
`product.ingramPartNumber || product.vendorPartNumber`. -/
def partNumberOf (p : Product) : Option String :=
  jsOrS p.ingramPartNumber p.vendorPartNumber

/-- The per-dimension tuple cache `state.filterParams`. -/
structure FilterParams where
  category : String
  subcategory : String
deriving DecidableEq

/-- The per-dimension in-flight guard `state.loadingFilters`. -/
structure LoadingFilters where
  category : Bool
  subcategory : Bool
deriving DecidableEq

/-- Pagination metadata as delivered by the products endpoint. -/
structure Pagination where
  page : Int
  totalPages : Int
  totalRecords : Int
deriving DecidableEq

/-- The widget's shared mutable `state` object, restricted to the fields
the verified functions read or write.  `selectedProducts` models the
`Map` values in insertion (iteration) order; `pricingData` models the
plain object keyed by ingram part number as an association list. -/
structure WidgetState where
  currentDistributor : String
  manufacturer : String
  category : String
  subcategory : String
  skuType : String
  skuKeyword : String
  loadingFilters : LoadingFilters
  filterParams : FilterParams
  currentPage : Int
  selectedProducts : List Product
  queuedProducts : List Product
  currentProducts : List Product
  pricingData : List (String × PricingRecord)
deriving DecidableEq

/-- Lookup `state.pricingData?.[key]`; indexing with an `undefined` key
yields `undefined`. -/
def lookupPricing (m : List (String × PricingRecord)) : Option String → Option PricingRecord
  | none => none
  | some k => (m.find? (fun e => e.1 == k)).map (·.2)

/-- One entry of the `DISTRIBUTORS` configuration table. -/
structure Distributor where
  name : String
  disabled : Bool
deriving DecidableEq

/-- The `DISTRIBUTORS` table of the source configuration. -/
def DISTRIBUTORS : String → Option Distributor
  | "ingram" => some ⟨"Ingram Micro", false⟩
  | "tdsynnex" => some ⟨"TD SYNNEX", true⟩
  | "arrow" => some ⟨"Arrow", true⟩
  | _ => none

/-- The submission wire record built by `submitQueue`, with the exact
field set and naming of the source. -/
structure OutputRecord where
  Product_Code : String
  Product_Name : String
  Manufacturer : String
  Ingram_Micro_SKU : String
  MSRP : Option ℚ
  Category : String
  Subcategory : String
  UPC : String
  Description : String
  Last_Sync_Source : String
  Quantity : Nat
deriving DecidableEq

/-- The body of `submitQueue`'s `map` callback: formats one queued
product into an `OutputRecord` (widget.js lines 1622-1639). -/
def formatProduct (st : WidgetState) (product : Product) : OutputRecord :=
  let pricingData :=
    jsOrPR product.pricingData (lookupPricing st.pricingData product.ingramPartNumber)
  { Product_Code := jsOrStr product.vendorPartNumber ""
    Product_Name := jsOrStr product.description ""
    Manufacturer := jsOrStr product.vendorName st.manufacturer
    Ingram_Micro_SKU := jsOrStr product.ingramPartNumber ""
    MSRP := jsOrQ ((pricingData.bind (·.pricing)).bind (·.retailPrice))
              (jsOrQ product.retailPrice none)
    Category := jsOrStr product.category st.category
    Subcategory := jsOrStr product.subCategory st.subcategory
    UPC := jsOrStr (pricingData.bind (·.upc)) (jsOrStr product.upcCode "")
    Description := jsOrStr product.extraDescription
                     (jsOrStr (pricingData.bind (·.description)) "")
    Last_Sync_Source := jsOrStr ((DISTRIBUTORS st.currentDistributor).map (·.name)) "Ingram Micro"
    Quantity := 1 }

/-- `submitQueue` (widget.js lines 1616-1652).  An empty queue is a
validation error and nothing is handed to the host; otherwise every
queued product is formatted in queue order and the list is passed to
`$Client.close` together with `state.currentDistributor`. -/
def submitQueue (st : WidgetState) : Except String (List OutputRecord × String) :=
  if st.queuedProducts.length == 0 then
    Except.error "No products in queue"
  else
    Except.ok (st.queuedProducts.map (formatProduct st), st.currentDistributor)

/-- Pricing enrichment performed by `addSelectedToQueue` before pushing a
product onto the queue:
`{...product, pricingData: product.pricingData || state.pricingData?.[product.ingramPartNumber]}`. -/
def enrichProduct (st : WidgetState) (product : Product) : Product :=
  { product with
      pricingData :=
        jsOrPR product.pricingData (lookupPricing st.pricingData product.ingramPartNumber) }

/-- `addSelectedToQueue` (widget.js lines 1460-1511), restricted to its
state mutation.  The returned value is the new state together with either
the validation error for an empty selection or the reported added count.
The duplicate check runs against the queue as it grows during the loop,
exactly as `state.queuedProducts.some(...)` does in the source while
`push` extends the same array. -/
def addSelectedToQueue (st : WidgetState) : WidgetState × Except String Nat :=
  let selectedArray := st.selectedProducts
  if selectedArray.length == 0 then
    (st, Except.error "No products selected")
  else
    let result := selectedArray.foldl
      (fun (acc : List Product × Nat) product =>
        let partNumber := jsOrS product.ingramPartNumber product.vendorPartNumber
        let alreadyQueued :=
          acc.1.any (fun p => jsOrS p.ingramPartNumber p.vendorPartNumber == partNumber)
        if alreadyQueued then acc
        else (acc.1 ++ [enrichProduct st product], acc.2 + 1))
      (st.queuedProducts, 0)
    ({ st with queuedProducts := result.1, selectedProducts := [] }, Except.ok result.2)

/-- Claim-side description of what `commit` appends: walking the
selection in iteration order, a product whose identity already matches a
queue entry (including entries appended earlier in the same commit) is
skipped, every other product is appended as a pricing-enriched copy.
Used to state the claim and proved equal to the `foldl` in the source
embedding. -/
def newQueueEntries (st : WidgetState) : List Product → List Product → List Product
  | _, [] => []
  | queued, p :: rest =>
    if queued.any (fun q => partNumberOf q == partNumberOf p) then
      newQueueEntries st queued rest
    else
      enrichProduct st p :: newQueueEntries st (queued ++ [enrichProduct st p]) rest

/-- The manufacturer-group key of a queued product used by the grouped
queue view and by `reorderByGroups`:
`product.vendorName || state.manufacturer || 'Unknown'`. -/
def productMfrGroup (st : WidgetState) (p : Product) : String :=
  jsOrStr p.vendorName (jsOrStr (some st.manufacturer) "Unknown")

/-- `reorderByGroups` (part_000 lines 1550-1567).  The manufacturer order
read from the DOM group headers is the `mfrOrder` parameter; for each
manufacturer in that order the queue's entries with that group key are
appended in their existing relative order. -/
def reorderByGroups (st : WidgetState) (mfrOrder : List String) : WidgetState :=
  { st with
      queuedProducts :=
        mfrOrder.foldl
          (fun newOrder mfr =>
            newOrder ++ st.queuedProducts.filter (fun p => productMfrGroup st p == mfr))
          [] }

/-- `handleDrop` (widget.js lines 987-1004), flat-reorder branch.  The
DOM order of `.queue-item` part numbers is the `domOrder` parameter; for
each part number the first queue entry with that identity (if any) is
pushed onto the new order, and the queue is replaced by the result.
Entries whose identity never occurs in `domOrder` are not re-added. -/
def handleDrop (st : WidgetState) (domOrder : List (Option String)) : WidgetState :=
  { st with
      queuedProducts :=
        domOrder.foldl
          (fun newOrder partNumber =>
            match st.queuedProducts.find? (fun p => partNumberOf p == partNumber) with
            | some product => newOrder ++ [product]
            | none => newOrder)
          [] }

/-- `resetProducts` (widget.js lines 1967-1983), restricted to state:
clears the page selection, the current product list and the pricing
cache; the queue is untouched. -/
def resetProducts (st : WidgetState) : WidgetState :=
  { st with selectedProducts := [], currentProducts := [], pricingData := [] }

/-- `resetOptionalFilters` (widget.js lines 1935-1965), restricted to
state: clears category, subcategory, sku type, keyword and both cached
parameter tuples. -/
def resetOptionalFilters (st : WidgetState) : WidgetState :=
  { st with
      category := "", subcategory := "", skuType := "", skuKeyword := "",
      filterParams := { category := "", subcategory := "" } }

/-- `onManufacturerSelect` (widget.js lines 1135-1156), restricted to its
synchronous state mutation: stores the selected manufacturer, then runs
`resetOptionalFilters` and `resetProducts`. -/
def onManufacturerSelect (st : WidgetState) (value : String) : WidgetState :=
  resetProducts (resetOptionalFilters { st with manufacturer := value })

/-- The three filter dimensions handled by `onFilterChange`. -/
inductive FilterType
  | category
  | subcategory
  | skuType
deriving DecidableEq

/-- `onFilterChange` (widget.js lines 1251-1268), restricted to its
synchronous state mutation: stores the new value, clears the cached
parameter tuple of every dimension other than the one being set
(`if (filterType !== 'category') state.filterParams.category = ''` and
likewise for subcategory), then runs `resetProducts`.  The subsequent
`await loadFilterOptions('subcategory')` on a category change is a
separate remote operation modelled by `loadFilterOptions`. -/
def onFilterChange (st : WidgetState) (filterType : FilterType) (value : String) : WidgetState :=
  let st1 :=
    match filterType with
    | FilterType.category => { st with category := value }
    | FilterType.subcategory => { st with subcategory := value }
    | FilterType.skuType => { st with skuType := value }
  let st2 :=
    { st1 with
        filterParams :=
          { category :=
              if filterType ≠ FilterType.category then "" else st1.filterParams.category
            subcategory :=
              if filterType ≠ FilterType.subcategory then "" else st1.filterParams.subcategory } }
  resetProducts st2

/-- The `skuSearch` input listener (widget.js lines 926-931): stores the
trimmed search box value in `state.skuKeyword` and nothing else. -/
def setSkuKeyword (st : WidgetState) (raw : String) : WidgetState :=
  { st with skuKeyword := jsTrim raw }

/-- The two remotely loaded filter dimensions of `loadFilterOptions`. -/
inductive FilterDim
  | category
  | subcategory
deriving DecidableEq

/-- Read the in-flight guard `state.loadingFilters[dim]`. -/
def getLoading (st : WidgetState) : FilterDim → Bool
  | FilterDim.category => st.loadingFilters.category
  | FilterDim.subcategory => st.loadingFilters.subcategory

/-- Read the cached parameter tuple `state.filterParams[dim]`. -/
def getFilterParam (st : WidgetState) : FilterDim → String
  | FilterDim.category => st.filterParams.category
  | FilterDim.subcategory => st.filterParams.subcategory

/-- Write the cached parameter tuple `state.filterParams[dim]`. -/
def setFilterParam (st : WidgetState) (dim : FilterDim) (v : String) : WidgetState :=
  match dim with
  | FilterDim.category =>
      { st with filterParams := { st.filterParams with category := v } }
  | FilterDim.subcategory =>
      { st with filterParams := { st.filterParams with subcategory := v } }

/-- The current parameter tuple
`` `${state.manufacturer}|${state.category}|${state.subcategory}|${state.skuType}` ``
built at the top of `loadFilterOptions`. -/
def currentParams (st : WidgetState) : String :=
  st.manufacturer ++ "|" ++ st.category ++ "|" ++ st.subcategory ++ "|" ++ st.skuType

/-- `loadFilterOptions` (widget.js lines 1161-1230), restricted to state
and to whether a remote request is issued (the second result component
counts issued requests).  The remote round trip is modelled
synchronously: `response` is the parsed reply (`Except.error` for a
transport failure).  The in-flight flag is raised before the request and
lowered after it, so its net effect within one completed call is nil; a
call that begins while the flag is raised returns without a request, as
does a call whose cached tuple equals the current tuple.  The option
lists written into the DOM dropdowns are outside the state model. -/
def loadFilterOptions (st : WidgetState) (dim : FilterDim)
    (response : Except Unit (List String)) : WidgetState × Nat :=
  if getLoading st dim then (st, 0)
  else if getFilterParam st dim == currentParams st then (st, 0)
  else
    match response with
    | Except.ok _items => (setFilterParam st dim (currentParams st), 1)
    | Except.error _ => (st, 1)

/-- One token of a natural (numeric-aware) sort key: a maximal digit run
collapsed to its numeric value, or a single non-digit character. -/
inductive SortTok
  | num : Nat → SortTok
  | chr : Char → SortTok
deriving DecidableEq

/-- Tokenizer for the natural sort key.  The accumulator holds the value
of the digit run currently being read. -/
def tokenizeAux : Option Nat → List Char → List SortTok
  | none, [] => []
  | some n, [] => [SortTok.num n]
  | acc, c :: rest =>
    if c.isDigit then
      tokenizeAux (some (acc.getD 0 * 10 + (c.toNat - 48))) rest
    else
      match acc with
      | none => SortTok.chr c :: tokenizeAux none rest
      | some n => SortTok.num n :: SortTok.chr c :: tokenizeAux none rest

/-- Natural sort key of a character sequence: maximal digit runs compare
by numeric value, other characters by code point. -/
def naturalTokens (s : List Char) : List SortTok :=
  tokenizeAux none s

/-- Comparison of single sort tokens: numeric runs by value, characters
by code point, and a numeric run before any non-digit character. -/
def tokCmp : SortTok → SortTok → Ordering
  | SortTok.num m, SortTok.num n => compare m n
  | SortTok.num _, SortTok.chr _ => Ordering.lt
  | SortTok.chr _, SortTok.num _ => Ordering.gt
  | SortTok.chr c, SortTok.chr d => compare c.toNat d.toNat

/-- Lexicographic comparison of token lists; a proper prefix sorts first. -/
def lexTokCmp : List SortTok → List SortTok → Ordering
  | [], [] => Ordering.eq
  | [], _ :: _ => Ordering.lt
  | _ :: _, [] => Ordering.gt
  | a :: as, b :: bs =>
    match tokCmp a b with
    | Ordering.eq => lexTokCmp as bs
    | o => o

/-- The sort key used by `displayProductsWithPricing`:
`(product.vendorPartNumber || '').toLowerCase()`, tokenized for the
numeric-aware collation.  `localeCompare(..., {numeric: true,
sensitivity: 'base'})` is modelled (per ECMA-402) as lexicographic
comparison of the lowercased key with maximal digit runs compared by
numeric value. -/
def sortKey (p : Product) : List SortTok :=
  naturalTokens ((jsOrStr p.vendorPartNumber "").data.map Char.toLower)

/-- The boolean "a sorts no later than b" relation induced by the
comparator passed to `Array.prototype.sort` in
`displayProductsWithPricing`: the comparator result is non-positive. -/
def naturalLe (a b : Product) : Bool :=
  !(lexTokCmp (sortKey a) (sortKey b) == Ordering.gt)

/-- One step of rebuilding `state.pricingData` inside the
`sortedProducts.forEach` loop:
`if (pricingData && product.ingramPartNumber) state.pricingData[product.ingramPartNumber] = pricingData`. -/
def recordPagePricing (m : List (String × PricingRecord)) (product : Product) :
    List (String × PricingRecord) :=
  match product.pricingData with
  | some pd =>
      if jsTruthyS product.ingramPartNumber then
        m.filter (fun e => !(e.1 == product.ingramPartNumber.getD "")) ++
          [(product.ingramPartNumber.getD "", pd)]
      else m
  | none => m

/-- `displayProductsWithPricing` (widget.js lines 1311-1371), restricted
to state: sorts the page's products by vendor part number with the
natural-order comparator (`Array.prototype.sort` is stable, hence
`List.mergeSort`), stores them as the current product list, and rebuilds
`state.pricingData` from scratch out of the pricing attached to the
displayed products alone. -/
def displayProductsWithPricing (st : WidgetState) (products : List Product)
    (_pg : Pagination) : WidgetState :=
  let sortedProducts := products.mergeSort naturalLe
  { st with
      currentProducts := sortedProducts,
      pricingData := sortedProducts.foldl recordPagePricing [] }

/-- The query parameters of the `productsWithPricing` request assembled
by `loadProducts` (widget.js lines 1284-1292): optional filters are
appended only when truthy, the keyword only when its length is at least
2. -/
structure ProductsRequest where
  vendor : String
  page : Int
  category : Option String
  subCategory : Option String
  skuType : Option String
  keyword : Option String
deriving DecidableEq

/-- Build the `productsWithPricing` request URL parameters from the
current state and the requested page. -/
def buildProductsUrl (st : WidgetState) (page : Int) : ProductsRequest :=
  { vendor := st.manufacturer
    page := page
    category := if st.category == "" then none else some st.category
    subCategory := if st.subcategory == "" then none else some st.subcategory
    skuType := if st.skuType == "" then none else some st.skuType
    keyword :=
      if jsTruthyS (some st.skuKeyword) && decide (2 ≤ st.skuKeyword.length) then
        some st.skuKeyword
      else none }

/-- `loadProducts` (widget.js lines 1273-1309), restricted to its
request-issuing phase: a missing manufacturer is a validation error and
no request is made; otherwise `state.currentPage` is set to the
requested page (unvalidated) and the request for exactly that page is
issued.  The response handling is `displayProductsWithPricing`. -/
def loadProducts (st : WidgetState) (page : Int) : WidgetState × Option ProductsRequest :=
  if st.manufacturer == "" then (st, none)
  else ({ st with currentPage := page }, some (buildProductsUrl st page))

/-- The enabled/disabled state of the two pager buttons rendered by
`renderPagination`. -/
structure PaginationControls where
  prevDisabled : Bool
  nextDisabled : Bool
deriving DecidableEq

/-- `renderPagination` (widget.js lines 1373-1392): with at most one
page no controls are rendered at all; otherwise Previous is disabled
exactly on page 1 and Next exactly when the page has reached the total
page count. -/
def renderPagination (pg : Pagination) : Option PaginationControls :=
  if pg.totalPages ≤ 1 then none
  else some { prevDisabled := pg.page == 1, nextDisabled := decide (pg.page ≥ pg.totalPages) }

/-- A baseline widget state with everything empty, for building the
concrete test states below. -/
def emptyState : WidgetState :=
  { currentDistributor := "ingram"
    manufacturer := ""
    category := ""
    subcategory := ""
    skuType := ""
    skuKeyword := ""
    loadingFilters := { category := false, subcategory := false }
    filterParams := { category := "", subcategory := "" }
    currentPage := 1
    selectedProducts := []
    queuedProducts := []
    currentProducts := []
    pricingData := [] }

/-- The queued product of the specification's submission-payload example:
`vendorPartNumber = "X1"`, `vendorName = "Acme"`, no catalog `upcCode`,
pricing with `retailPrice = 19.99` and `upc = "012345"`. -/
def exSubmitProduct : Product :=
  { emptyProduct with
      vendorPartNumber := some "X1"
      vendorName := some "Acme"
      ingramPartNumber := some "SKU1"
      pricingData := some
        { pricing := some { retailPrice := some (19.99 : ℚ) }
          upc := some "012345"
          description := none } }

/-- State for the submission example: one queued product. -/
def exSubmitState : WidgetState :=
  { emptyState with manufacturer := "Acme", queuedProducts := [exSubmitProduct] }

/-- Queue entry already present for the commit example (identity "A1"). -/
def exQueuedA1 : Product :=
  { emptyProduct with ingramPartNumber := some "A1", vendorPartNumber := some "VA1" }

/-- Selected product whose identity "A1" is already queued. -/
def exSelectedA1 : Product :=
  { emptyProduct with ingramPartNumber := some "A1", description := some "dup" }

/-- Selected product with the fresh identity "B2". -/
def exSelectedB2 : Product :=
  { emptyProduct with ingramPartNumber := some "B2", description := some "new" }

/-- State for the commit example: queue holds identity "A1", the
selection holds identities "A1" and "B2". -/
def exCommitState : WidgetState :=
  { emptyState with
      queuedProducts := [exQueuedA1]
      selectedProducts := [exSelectedA1, exSelectedB2] }

/-- Product A of the grouped-reorder example, manufacturer m1. -/
def exGroupA : Product :=
  { emptyProduct with vendorPartNumber := some "A", vendorName := some "m1" }

/-- Product B of the grouped-reorder example, manufacturer m2. -/
def exGroupB : Product :=
  { emptyProduct with vendorPartNumber := some "B", vendorName := some "m2" }

/-- Product C of the grouped-reorder example, manufacturer m1. -/
def exGroupC : Product :=
  { emptyProduct with vendorPartNumber := some "C", vendorName := some "m1" }

/-- State for the grouped-reorder example: queue `[(A,m1),(B,m2),(C,m1)]`. -/
def exGroupState : WidgetState :=
  { emptyState with queuedProducts := [exGroupA, exGroupB, exGroupC] }

/-- Queue entry with identity "A" for the drag-reorder examples. -/
def exDropA : Product :=
  { emptyProduct with ingramPartNumber := some "A", description := some "first" }

/-- Queue entry with identity "B" for the drag-reorder examples. -/
def exDropB : Product :=
  { emptyProduct with ingramPartNumber := some "B", description := some "second" }

/-- State for the drag-reorder examples: queue `[A, B]`. -/
def exDropState : WidgetState :=
  { emptyState with queuedProducts := [exDropA, exDropB] }

/-- State for the invalidation counterexample: a manufacturer is active,
both parameter tuples are cached, a product page with pricing is loaded. -/
def exFilterState : WidgetState :=
  { emptyState with
      manufacturer := "Acme"
      category := "Laptops"
      filterParams := { category := "Acme|Laptops||", subcategory := "Acme|Laptops||" }
      currentProducts := [exQueuedA1]
      pricingData := [("OLDSKU", { pricing := none, upc := none, description := none })] }

/-- Product with vendor part number "A10" for the natural-sort example. -/
def exPartA10 : Product := { emptyProduct with vendorPartNumber := some "A10" }

/-- Product with vendor part number "A2" for the natural-sort example. -/
def exPartA2 : Product := { emptyProduct with vendorPartNumber := some "A2" }

/-- Product with vendor part number "A1" for the natural-sort example. -/
def exPartA1 : Product := { emptyProduct with vendorPartNumber := some "A1" }

/-- A pagination value for calls whose pagination argument is irrelevant. -/
def exPagination : Pagination := { page := 1, totalPages := 1, totalRecords := 3 }

/-! ## Shared helper lemmas -/

theorem jsOrStr_empty_getD (a : Option String) : jsOrStr a "" = a.getD "" := by
  cases a with
  | none => simp [jsOrStr, jsTruthyS]
  | some s =>
    by_cases h : s = ""
    · simp [jsOrStr, jsTruthyS, h]
    · simp [jsOrStr, jsTruthyS, h]

/-! ## C1: submission payload -/

/-- C1: for every non-empty queue, `submitQueue` maps each queue entry in
queue order to an output record with exactly the `OutputRecord` field
set — Product_Code (vendor part number, else empty), Product_Name
(description, else empty), Manufacturer (vendor name, falling back to
the active filter manufacturer), Ingram_Micro_SKU (ingram part number,
else empty), MSRP (pricing-record retail price, falling back to a
previously cached retail price on the product, else null), Category and
Subcategory (product's own value, falling back to the active filter
value, else empty), UPC (pricing-record upc, falling back to the
product's `upcCode`, else empty), Description (long description, falling
back to the pricing-record description, else empty), Last_Sync_Source
(display name of the active distributor) and Quantity 1 — and hands the
list together with the active distributor identifier to the host;
submitting an empty queue fails with a validation error and nothing is
sent.  The fallbacks are JavaScript `||`, so an empty string or a zero
price also falls through. -/
theorem submitQueue_formats_queue_in_order (st : WidgetState) (product : Product) :
    (st.queuedProducts = [] → submitQueue st = Except.error "No products in queue") ∧
    (st.queuedProducts ≠ [] →
      submitQueue st =
        Except.ok (st.queuedProducts.map (formatProduct st), st.currentDistributor)) ∧
    ((formatProduct st product).Product_Code = product.vendorPartNumber.getD "" ∧
     (formatProduct st product).Product_Name = product.description.getD "" ∧
     (formatProduct st product).Manufacturer = jsOrStr product.vendorName st.manufacturer ∧
     (formatProduct st product).Ingram_Micro_SKU = product.ingramPartNumber.getD "" ∧
     (formatProduct st product).MSRP =
       (let pd := jsOrPR product.pricingData
                    (lookupPricing st.pricingData product.ingramPartNumber);
        let fromRecord := (pd.bind (·.pricing)).bind (·.retailPrice);
        if jsTruthyQ fromRecord then fromRecord
        else if jsTruthyQ product.retailPrice then product.retailPrice
        else none) ∧
     (formatProduct st product).Category = jsOrStr product.category st.category ∧
     (formatProduct st product).Subcategory = jsOrStr product.subCategory st.subcategory ∧
     (formatProduct st product).UPC =
       (let pd := jsOrPR product.pricingData
                    (lookupPricing st.pricingData product.ingramPartNumber);
        if jsTruthyS (pd.bind (·.upc)) then (pd.bind (·.upc)).getD ""
        else (product.upcCode).getD "") ∧
     (formatProduct st product).Description =
       (let pd := jsOrPR product.pricingData
                    (lookupPricing st.pricingData product.ingramPartNumber);
        if jsTruthyS product.extraDescription then (product.extraDescription).getD ""
        else (pd.bind (·.description)).getD "") ∧
     (formatProduct st product).Last_Sync_Source =
       jsOrStr ((DISTRIBUTORS st.currentDistributor).map (·.name)) "Ingram Micro" ∧
     (formatProduct st product).Quantity = 1) := by
  refine ⟨?_, ?_, ?_⟩
  · intro h
    simp [submitQueue, h]
  · intro h
    have : st.queuedProducts.length ≠ 0 := by
      simpa [List.length_eq_zero] using h
    simp [submitQueue, this]
  · refine ⟨?_, ?_, rfl, ?_, ?_, rfl, rfl, ?_, ?_, rfl, rfl⟩
    · simp [formatProduct, jsOrStr_empty_getD]
    · simp [formatProduct, jsOrStr_empty_getD]
    · simp [formatProduct, jsOrStr_empty_getD]
    · simp only [formatProduct, jsOrQ]
    · simp only [formatProduct]
      rw [jsOrStr]
      split
      · rfl
      · rw [jsOrStr_empty_getD]
    · simp only [formatProduct]
      rw [jsOrStr]
      split
      · rfl
      · rw [jsOrStr_empty_getD]

/-- Witness for C1: the specification's submission example.  A queued
product with pricing `retailPrice = 19.99`, `vendorPartNumber = "X1"`,
`vendorName = "Acme"`, no catalog `upcCode` and pricing `upc = "012345"`
produces `Product_Code = "X1"`, `MSRP = 19.99`, `Manufacturer = "Acme"`,
`UPC = "012345"`, `Last_Sync_Source = "Ingram Micro"`, `Quantity = 1`. -/
theorem submitQueue_formats_witness :
    exSubmitState.queuedProducts ≠ [] ∧
    submitQueue exSubmitState =
      Except.ok
        ([{ Product_Code := "X1", Product_Name := "", Manufacturer := "Acme",
            Ingram_Micro_SKU := "SKU1", MSRP := some (19.99 : ℚ), Category := "",
            Subcategory := "", UPC := "012345", Description := "",
            Last_Sync_Source := "Ingram Micro", Quantity := 1 }], "ingram") := by
  refine ⟨by decide, ?_⟩
  have h :=
    (submitQueue_formats_queue_in_order exSubmitState exSubmitProduct).2.1 (by decide)
  rw [h]
  norm_num [formatProduct, exSubmitState, exSubmitProduct, emptyState, emptyProduct,
    jsOrPR, jsOrStr, jsOrS, jsOrQ, jsTruthyS, jsTruthyQ, lookupPricing, DISTRIBUTORS]
  decide

/-! ## C2: committing the selection to the queue -/

theorem partNumberOf_enrich (st : WidgetState) (p : Product) :
    partNumberOf (enrichProduct st p) = partNumberOf p := rfl

theorem commit_foldl_eq (st : WidgetState) (sel : List Product) :
    ∀ (queued : List Product) (n : Nat),
      sel.foldl
        (fun (acc : List Product × Nat) product =>
          let partNumber := jsOrS product.ingramPartNumber product.vendorPartNumber
          let alreadyQueued :=
            acc.1.any (fun p => jsOrS p.ingramPartNumber p.vendorPartNumber == partNumber)
          if alreadyQueued then acc
          else (acc.1 ++ [enrichProduct st product], acc.2 + 1))
        (queued, n) =
      (queued ++ newQueueEntries st queued sel,
       n + (newQueueEntries st queued sel).length) := by
  induction sel with
  | nil => intro queued n; simp [newQueueEntries]
  | cons p rest ih =>
    intro queued n
    by_cases h : queued.any (fun q => partNumberOf q == partNumberOf p)
    · have h' : queued.any
          (fun q => jsOrS q.ingramPartNumber q.vendorPartNumber ==
            jsOrS p.ingramPartNumber p.vendorPartNumber) = true := h
      simp only [List.foldl_cons, h', if_true, newQueueEntries, h, ih]
    · have h' : queued.any
          (fun q => jsOrS q.ingramPartNumber q.vendorPartNumber ==
            jsOrS p.ingramPartNumber p.vendorPartNumber) = false := by
        simpa [partNumberOf] using h
      simp only [List.foldl_cons, h', Bool.false_eq_true, if_false, newQueueEntries, h, ih]
      rw [Prod.mk.injEq]
      refine ⟨by simp, ?_⟩
      simp only [List.length_cons]
      omega

/-- C2: for every non-empty selection, `addSelectedToQueue` appends to the
end of the queue, in selection iteration order, one pricing-enriched copy
of each selected product whose identity does not already match a queue
entry (including entries appended earlier in the same commit); selected
products already queued are skipped silently, the reported added count is
exactly the number actually appended, and the selection is cleared
afterwards. -/
theorem addSelectedToQueue_commit (st : WidgetState) (h : st.selectedProducts ≠ []) :
    (addSelectedToQueue st).1.queuedProducts =
      st.queuedProducts ++ newQueueEntries st st.queuedProducts st.selectedProducts ∧
    (addSelectedToQueue st).2 =
      Except.ok (newQueueEntries st st.queuedProducts st.selectedProducts).length ∧
    (addSelectedToQueue st).1.selectedProducts = [] := by
  have hlen : (st.selectedProducts.length == 0) = false := by
    simp [List.length_eq_zero, h]
  simp only [addSelectedToQueue, hlen, Bool.false_eq_true, if_false,
    commit_foldl_eq st st.selectedProducts st.queuedProducts 0]
  simp

/-- Witness for C2: with queue `[A1]` and selection `[A1', B2]` (the
first selected product shares identity "A1" with the queue entry), the
commit appends only the enriched copy of `B2`, reports an added count of
1 rather than the selection size 2, and clears the selection. -/
theorem addSelectedToQueue_commit_witness :
    exCommitState.selectedProducts ≠ [] ∧
    (addSelectedToQueue exCommitState).1.queuedProducts =
      exCommitState.queuedProducts ++
        newQueueEntries exCommitState exCommitState.queuedProducts
          exCommitState.selectedProducts ∧
    (addSelectedToQueue exCommitState).1.queuedProducts =
      [exQueuedA1, enrichProduct exCommitState exSelectedB2] ∧
    (addSelectedToQueue exCommitState).2 = Except.ok 1 ∧
    (addSelectedToQueue exCommitState).1.selectedProducts = [] :=
  ⟨by decide, (addSelectedToQueue_commit exCommitState (by decide)).1,
   by decide, by rfl, by decide⟩

/-! ## C3: grouped reorder -/

theorem foldl_append_eq_flatten {α β : Type} (f : β → List α) :
    ∀ (l : List β) (init : List α),
      l.foldl (fun acc b => acc ++ f b) init = init ++ (l.map f).flatten := by
  intro l
  induction l with
  | nil => intro init; simp
  | cons b rest ih => intro init; simp [ih]

theorem flatten_filter_perm {α : Type} (key : α → String) :
    ∀ (ms : List String) (l : List α), ms.Nodup →
      (∀ a ∈ l, key a ∈ ms) →
      ((ms.map fun m => l.filter fun a => key a == m).flatten).Perm l := by
  intro ms
  induction ms with
  | nil =>
    intro l _ hcov
    have : l = [] := by
      cases l with
      | nil => rfl
      | cons a as => exact absurd (hcov a (by simp)) (by simp)
    simp [this]
  | cons m ms ih =>
    intro l hnodup hcov
    have hm : m ∉ ms := (List.nodup_cons.mp hnodup).1
    have hms : ms.Nodup := (List.nodup_cons.mp hnodup).2
    simp only [List.map_cons, List.flatten_cons]
    have hgroups : ∀ m' ∈ ms,
        (l.filter fun a => key a == m') =
          ((l.filter fun a => !(key a == m)).filter fun a => key a == m') := by
      intro m' hm'
      rw [List.filter_filter]
      apply List.filter_congr
      intro a _
      by_cases hk : key a = m'
      · have hne : m' ≠ m := fun hh => hm (hh ▸ hm')
        simp [hk, hne]
      · simp [hk]
    have hmap : (ms.map fun m' => l.filter fun a => key a == m') =
        (ms.map fun m' => (l.filter fun a => !(key a == m)).filter fun a => key a == m') :=
      List.map_congr_left hgroups
    have hcov' : ∀ a ∈ (l.filter fun a => !(key a == m)), key a ∈ ms := by
      intro a ha
      rcases List.mem_filter.mp ha with ⟨hal, hne⟩
      have := hcov a hal
      simp only [List.mem_cons] at this
      rcases this with hh | hh
      · exact absurd hh (by simpa using hne)
      · exact hh
    have htail := ih (l.filter fun a => !(key a == m)) hms hcov'
    rw [hmap]
    exact List.Perm.trans (List.Perm.append_left _ htail) (List.filter_append_perm _ l)

/-- C3: for every queue and every duplicate-free manufacturer order that
covers the queue's groups, `reorderByGroups` replaces the queue with the
concatenation, manufacturer by manufacturer in the given order, of that
manufacturer's existing entries in their existing relative order — a
stable regrouping that permutes the queue without touching intra-group
order. -/
theorem reorderByGroups_stable (st : WidgetState) (mfrOrder : List String)
    (hnodup : mfrOrder.Nodup)
    (hcover : ∀ p ∈ st.queuedProducts, productMfrGroup st p ∈ mfrOrder) :
    (reorderByGroups st mfrOrder).queuedProducts =
      (mfrOrder.map fun m =>
        st.queuedProducts.filter fun p => productMfrGroup st p == m).flatten ∧
    (reorderByGroups st mfrOrder).queuedProducts.Perm st.queuedProducts := by
  have hfold : (reorderByGroups st mfrOrder).queuedProducts =
      (mfrOrder.map fun m =>
        st.queuedProducts.filter fun p => productMfrGroup st p == m).flatten := by
    show mfrOrder.foldl _ [] = _
    rw [foldl_append_eq_flatten (fun m =>
      st.queuedProducts.filter fun p => productMfrGroup st p == m) mfrOrder []]
    rfl
  refine ⟨hfold, ?_⟩
  rw [hfold]
  exact flatten_filter_perm (productMfrGroup st) mfrOrder st.queuedProducts hnodup hcover

/-- Witness for C3: the specification's example — queue
`[(A,m1),(B,m2),(C,m1)]` with group order `[m2,m1]` yields
`[(B,m2),(A,m1),(C,m1)]`, preserving the relative order of A and C. -/
theorem reorderByGroups_stable_witness :
    (["m2", "m1"] : List String).Nodup ∧
    (∀ p ∈ exGroupState.queuedProducts,
      productMfrGroup exGroupState p ∈ (["m2", "m1"] : List String)) ∧
    (reorderByGroups exGroupState ["m2", "m1"]).queuedProducts.Perm
      exGroupState.queuedProducts ∧
    (reorderByGroups exGroupState ["m2", "m1"]).queuedProducts =
      [exGroupB, exGroupA, exGroupC] :=
  ⟨by decide, by decide,
   (reorderByGroups_stable exGroupState ["m2", "m1"] (by decide) (by decide)).2,
   by decide⟩

/-! ## C4: flat drag-reorder -/

theorem drop_foldl_eq_filterMap (st : WidgetState) :
    ∀ (domOrder : List (Option String)) (init : List Product),
      domOrder.foldl
        (fun newOrder partNumber =>
          match st.queuedProducts.find? (fun p => partNumberOf p == partNumber) with
          | some product => newOrder ++ [product]
          | none => newOrder) init =
      init ++ domOrder.filterMap
        (fun partNumber => st.queuedProducts.find? (fun p => partNumberOf p == partNumber)) := by
  intro domOrder
  induction domOrder with
  | nil => intro init; simp
  | cons pn rest ih =>
    intro init
    simp only [List.foldl_cons, List.filterMap_cons]
    cases hfind : st.queuedProducts.find? (fun p => partNumberOf p == pn) with
    | none => simp [hfind, ih]
    | some product => simp [hfind, ih]

theorem handleDrop_find_eq (st : WidgetState) (domOrder : List (Option String)) :
    (handleDrop st domOrder).queuedProducts =
      domOrder.filterMap
        (fun partNumber => st.queuedProducts.find? (fun p => partNumberOf p == partNumber)) := by
  show domOrder.foldl _ [] = _
  rw [drop_foldl_eq_filterMap]
  rfl

/-- Counterexample for C4 as stated: dropping with a DOM order that is
not a permutation of the queue identities does not abort — `handleDrop`
on queue `[A, B]` with order `[A]` completes normally and silently drops
entry B from the queue. -/
theorem handleDrop_counterexample :
    ¬ ([some "A"] : List (Option String)).Perm
        (exDropState.queuedProducts.map partNumberOf) ∧
    (handleDrop exDropState [some "A"]).queuedProducts = [exDropA] ∧
    exDropB ∈ exDropState.queuedProducts ∧
    exDropB ∉ (handleDrop exDropState [some "A"]).queuedProducts := by
  refine ⟨fun h => ?_, by decide, by decide, by decide⟩
  have hl := h.length_eq
  simp [exDropState, emptyState] at hl

/-- C4 (amended): `handleDrop` rebuilds the queue as, for each identity
in the DOM order, the first queue entry with that identity (if any);
identities not present in the queue are ignored and queue entries absent
from the DOM order are silently dropped — there is no fatal failure.
When the DOM order is a permutation of the queue's duplicate-free
identities, the result is exactly the queue permuted to match it. -/
theorem handleDrop_permutation (st : WidgetState) (domOrder : List (Option String))
    (hnodup : (st.queuedProducts.map partNumberOf).Nodup)
    (hperm : domOrder.Perm (st.queuedProducts.map partNumberOf)) :
    (handleDrop st domOrder).queuedProducts.map partNumberOf = domOrder ∧
    (handleDrop st domOrder).queuedProducts.Perm st.queuedProducts := by
  have hfind : ∀ pn ∈ domOrder, ∃ p,
      st.queuedProducts.find? (fun q => partNumberOf q == pn) = some p ∧
      partNumberOf p = pn ∧ p ∈ st.queuedProducts := by
    intro pn hpn
    have hmem : pn ∈ st.queuedProducts.map partNumberOf := hperm.mem_iff.mp hpn
    rcases List.mem_map.mp hmem with ⟨p, hp, hpe⟩
    have hs : (st.queuedProducts.find? (fun q => partNumberOf q == pn)).isSome := by
      rw [List.find?_isSome]
      exact ⟨p, hp, by simp [hpe]⟩
    rcases Option.isSome_iff_exists.mp hs with ⟨q, hq⟩
    exact ⟨q, hq, by simpa using List.find?_some hq, List.mem_of_find?_eq_some hq⟩
  have hres := handleDrop_find_eq st domOrder
  have hmap : ∀ (ds : List (Option String)), (∀ pn ∈ ds, pn ∈ domOrder) →
      (ds.filterMap
        (fun pn => st.queuedProducts.find? (fun q => partNumberOf q == pn))).map
          partNumberOf = ds := by
    intro ds
    induction ds with
    | nil => intro _; simp
    | cons pn rest ih =>
      intro hsub
      rcases hfind pn (hsub pn (by simp)) with ⟨p, hp, hpe, _⟩
      simp only [List.filterMap_cons, hp, List.map_cons, hpe]
      rw [ih (fun x hx => hsub x (by simp [hx]))]
  have hmapeq : (handleDrop st domOrder).queuedProducts.map partNumberOf = domOrder := by
    rw [hres]
    exact hmap domOrder (fun _ h => h)
  refine ⟨hmapeq, ?_⟩
  have hqnodup : st.queuedProducts.Nodup := List.Nodup.of_map _ hnodup
  have hdnodup : domOrder.Nodup := hperm.nodup_iff.mpr hnodup
  have hmnodup : ((handleDrop st domOrder).queuedProducts.map partNumberOf).Nodup := by
    rw [hmapeq]
    exact hdnodup
  have hrnodup := List.Nodup.of_map _ hmnodup
  rw [List.perm_ext_iff_of_nodup hrnodup hqnodup]
  intro p
  constructor
  · intro hp
    rw [hres] at hp
    rcases List.mem_filterMap.mp hp with ⟨pn, _, hfnd⟩
    exact List.mem_of_find?_eq_some hfnd
  · intro hp
    have hpn : partNumberOf p ∈ domOrder :=
      hperm.mem_iff.mpr (List.mem_map_of_mem _ hp)
    rcases hfind _ hpn with ⟨q, hq, hqe, hqmem⟩
    have hqp : q = p := List.inj_on_of_nodup_map hnodup hqmem hp hqe
    rw [hres]
    exact List.mem_filterMap.mpr ⟨partNumberOf p, hpn, hqp ▸ hq⟩

/-- Witness for the amended C4: on queue `[A, B]`, dropping with the DOM
order `[B, A]` — a permutation of the identities — yields exactly the
queue reordered to `[B, A]`. -/
theorem handleDrop_permutation_witness :
    (exDropState.queuedProducts.map partNumberOf).Nodup ∧
    ([some "B", some "A"] : List (Option String)).Perm
      (exDropState.queuedProducts.map partNumberOf) ∧
    (handleDrop exDropState [some "B", some "A"]).queuedProducts.map partNumberOf =
      [some "B", some "A"] ∧
    (handleDrop exDropState [some "B", some "A"]).queuedProducts =
      [exDropB, exDropA] :=
  ⟨by decide, by decide,
   (handleDrop_permutation exDropState [some "B", some "A"] (by decide) (by decide)).1,
   by decide⟩

/-! ## C5: cascading filter invalidation -/

/-- Counterexample for C5 as stated: the claim's last clause says changing
subcategory, type, or keyword invalidates only product state, but on a
state with a cached category tuple and a loaded product page, changing
the subcategory also clears the cached category parameter tuple, and
changing the keyword invalidates nothing at all — the loaded product
page survives. -/
theorem filter_invalidation_counterexample :
    exFilterState.filterParams.category = "Acme|Laptops||" ∧
    (onFilterChange exFilterState FilterType.subcategory "Lite").filterParams.category = "" ∧
    exFilterState.currentProducts ≠ [] ∧
    (setSkuKeyword exFilterState "gaming").currentProducts = exFilterState.currentProducts ∧
    (setSkuKeyword exFilterState "gaming").pricingData = exFilterState.pricingData := by
  exact ⟨rfl, rfl, by decide, rfl, rfl⟩

/-- C5 (amended): changing the manufacturer clears category, subcategory,
sku type, keyword, both cached parameter tuples and all downstream
product state (current list, page selection, pricing cache); changing
the category leaves the manufacturer and the cached category tuple
intact while clearing the cached subcategory tuple and the product
state; changing the subcategory clears the cached category tuple
(keeping the cached subcategory tuple) and the product state; changing
the sku type clears both cached tuples and the product state; changing
the keyword merely stores the trimmed keyword and invalidates nothing,
not even the product state. -/
theorem filter_invalidation (st : WidgetState) (v : String) :
    ((onManufacturerSelect st v).manufacturer = v ∧
     (onManufacturerSelect st v).category = "" ∧
     (onManufacturerSelect st v).subcategory = "" ∧
     (onManufacturerSelect st v).skuType = "" ∧
     (onManufacturerSelect st v).skuKeyword = "" ∧
     (onManufacturerSelect st v).filterParams = ⟨"", ""⟩ ∧
     (onManufacturerSelect st v).currentProducts = [] ∧
     (onManufacturerSelect st v).selectedProducts = [] ∧
     (onManufacturerSelect st v).pricingData = []) ∧
    ((onFilterChange st FilterType.category v).manufacturer = st.manufacturer ∧
     (onFilterChange st FilterType.category v).category = v ∧
     (onFilterChange st FilterType.category v).subcategory = st.subcategory ∧
     (onFilterChange st FilterType.category v).filterParams.category =
       st.filterParams.category ∧
     (onFilterChange st FilterType.category v).filterParams.subcategory = "" ∧
     (onFilterChange st FilterType.category v).currentProducts = [] ∧
     (onFilterChange st FilterType.category v).selectedProducts = [] ∧
     (onFilterChange st FilterType.category v).pricingData = [] ∧
     (onFilterChange st FilterType.category v).queuedProducts = st.queuedProducts) ∧
    ((onFilterChange st FilterType.subcategory v).manufacturer = st.manufacturer ∧
     (onFilterChange st FilterType.subcategory v).category = st.category ∧
     (onFilterChange st FilterType.subcategory v).subcategory = v ∧
     (onFilterChange st FilterType.subcategory v).filterParams.category = "" ∧
     (onFilterChange st FilterType.subcategory v).filterParams.subcategory =
       st.filterParams.subcategory ∧
     (onFilterChange st FilterType.subcategory v).currentProducts = [] ∧
     (onFilterChange st FilterType.subcategory v).selectedProducts = []) ∧
    ((onFilterChange st FilterType.skuType v).manufacturer = st.manufacturer ∧
     (onFilterChange st FilterType.skuType v).skuType = v ∧
     (onFilterChange st FilterType.skuType v).filterParams = ⟨"", ""⟩ ∧
     (onFilterChange st FilterType.skuType v).currentProducts = []) ∧
    ((setSkuKeyword st v).skuKeyword = jsTrim v ∧
     setSkuKeyword st v = { st with skuKeyword := jsTrim v }) :=
  ⟨⟨rfl, rfl, rfl, rfl, rfl, rfl, rfl, rfl, rfl⟩,
   ⟨rfl, rfl, rfl, rfl, rfl, rfl, rfl, rfl, rfl⟩,
   ⟨rfl, rfl, rfl, rfl, rfl, rfl, rfl⟩,
   ⟨rfl, rfl, rfl, rfl⟩,
   ⟨rfl, rfl⟩⟩

/-! ## C6: filter option load idempotence -/

/-- C6: when no load for a dimension is in flight and the cached
parameter tuple for that dimension equals the current tuple,
`loadFilterOptions` is a no-op issuing no request; a call made while a
load is in flight also returns without a request; and two successive
calls for the same dimension with no intervening state change (the first
completing successfully) issue exactly one remote request in total. -/
theorem loadFilterOptions_idempotent (st : WidgetState) (dim : FilterDim)
    (r : Except Unit (List String)) :
    (getLoading st dim = true → loadFilterOptions st dim r = (st, 0)) ∧
    (getFilterParam st dim = currentParams st → loadFilterOptions st dim r = (st, 0)) ∧
    (getLoading st dim = false → getFilterParam st dim ≠ currentParams st →
      ∀ items : List String,
        (loadFilterOptions st dim (Except.ok items)).2 = 1 ∧
        loadFilterOptions (loadFilterOptions st dim (Except.ok items)).1 dim r =
          ((loadFilterOptions st dim (Except.ok items)).1, 0)) := by
  refine ⟨?_, ?_, ?_⟩
  · intro h
    simp [loadFilterOptions, h]
  · intro h
    by_cases hl : getLoading st dim
    · simp [loadFilterOptions, hl]
    · simp [loadFilterOptions, hl, h]
  · intro hl hp items
    have hbeq : (getFilterParam st dim == currentParams st) = false := by
      simpa using hp
    have h1 : loadFilterOptions st dim (Except.ok items) =
        (setFilterParam st dim (currentParams st), 1) := by
      simp [loadFilterOptions, hl, hbeq]
    refine ⟨by rw [h1], ?_⟩
    rw [h1]
    have hload : getLoading (setFilterParam st dim (currentParams st)) dim =
        getLoading st dim := by
      cases dim <;> rfl
    have hparam : getFilterParam (setFilterParam st dim (currentParams st)) dim =
        currentParams st := by
      cases dim <;> rfl
    have hcur : currentParams (setFilterParam st dim (currentParams st)) =
        currentParams st := by
      cases dim <;> rfl
    simp [loadFilterOptions, hload, hl, hparam, hcur]

/-- Witness for C6: from the initial state (nothing cached, nothing in
flight), loading the category options twice with no intervening state
change issues exactly one remote request: the first call fires and the
second is a no-op. -/
theorem loadFilterOptions_idempotent_witness :
    getLoading emptyState FilterDim.category = false ∧
    getFilterParam emptyState FilterDim.category ≠ currentParams emptyState ∧
    (loadFilterOptions emptyState FilterDim.category (Except.ok ["Laptops"])).2 = 1 ∧
    loadFilterOptions
        (loadFilterOptions emptyState FilterDim.category (Except.ok ["Laptops"])).1
        FilterDim.category (Except.ok ["Laptops"]) =
      ((loadFilterOptions emptyState FilterDim.category (Except.ok ["Laptops"])).1, 0) :=
  ⟨by decide, by decide,
   ((loadFilterOptions_idempotent emptyState FilterDim.category
      (Except.ok ["Laptops"])).2.2 (by decide) (by decide) ["Laptops"]).1,
   ((loadFilterOptions_idempotent emptyState FilterDim.category
      (Except.ok ["Laptops"])).2.2 (by decide) (by decide) ["Laptops"]).2⟩

/-! ## C8: page validation and pager boundary controls -/

/-- Counterexample for C8 as stated: with a manufacturer active,
`loadProducts` called with page 0 (or any negative page) does not clamp
or reject — it records the page as-is and issues the remote request with
`page = 0`. -/
theorem loadProducts_page_counterexample :
    exFilterState.manufacturer ≠ "" ∧
    (loadProducts exFilterState 0).2 = some (buildProductsUrl exFilterState 0) ∧
    (buildProductsUrl exFilterState 0).page = 0 ∧
    (loadProducts exFilterState 0).1.currentPage = 0 ∧
    (loadProducts exFilterState (-3)).2.isSome = true := by
  exact ⟨by decide, rfl, rfl, rfl, rfl⟩

/-- C8 (amended): page numbers are 1-based only by convention (the
default argument is 1): `loadProducts` validates nothing about the page
number — page 0 or a negative page is recorded and sent to the remote
service unchanged, and only a missing manufacturer is rejected without a
request.  The pager controls are computed from the recorded pagination
alone: nothing is rendered with at most one page, and otherwise Previous
is disabled exactly on page 1 and Next exactly when the page is at least
the total page count. -/
theorem loadProducts_pagination (st : WidgetState) (page : Int) (pg : Pagination) :
    (st.manufacturer = "" → loadProducts st page = (st, none)) ∧
    (st.manufacturer ≠ "" →
      loadProducts st page =
        ({ st with currentPage := page }, some (buildProductsUrl st page)) ∧
      (buildProductsUrl st page).page = page) ∧
    (pg.totalPages ≤ 1 → renderPagination pg = none) ∧
    (1 < pg.totalPages →
      ∃ c, renderPagination pg = some c ∧
        (c.prevDisabled = true ↔ pg.page = 1) ∧
        (c.nextDisabled = true ↔ pg.page ≥ pg.totalPages)) := by
  refine ⟨?_, ?_, ?_, ?_⟩
  · intro h
    simp [loadProducts, h]
  · intro h
    have hbeq : (st.manufacturer == "") = false := by simpa using h
    exact ⟨by simp [loadProducts, hbeq], rfl⟩
  · intro h
    simp [renderPagination, h]
  · intro h
    have h' : ¬ pg.totalPages ≤ 1 := by omega
    refine ⟨⟨pg.page == 1, decide (pg.page ≥ pg.totalPages)⟩, ?_, ?_, ?_⟩
    · simp [renderPagination, h']
    · simp
    · simp

/-- Witness for the amended C8: an empty manufacturer yields no request;
with manufacturer "Acme" page 0 is passed through unvalidated; one total
page renders no controls; on page 1 of 5, Previous is disabled and Next
is not. -/
theorem loadProducts_pagination_witness :
    loadProducts emptyState 2 = (emptyState, none) ∧
    exFilterState.manufacturer ≠ "" ∧
    loadProducts exFilterState 0 =
      ({ exFilterState with currentPage := 0 }, some (buildProductsUrl exFilterState 0)) ∧
    renderPagination ⟨3, 1, 10⟩ = none ∧
    (∃ c, renderPagination ⟨1, 5, 100⟩ = some c ∧
      (c.prevDisabled = true ↔ (1 : Int) = 1) ∧
      (c.nextDisabled = true ↔ (1 : Int) ≥ 5)) :=
  ⟨(loadProducts_pagination emptyState 2 ⟨3, 1, 10⟩).1 rfl,
   by decide,
   ((loadProducts_pagination exFilterState 0 ⟨3, 1, 10⟩).2.1 (by decide)).1,
   (loadProducts_pagination emptyState 2 ⟨3, 1, 10⟩).2.2.1 (by decide),
   (loadProducts_pagination emptyState 2 ⟨1, 5, 100⟩).2.2.2 (by decide)⟩

/-! ## C9: the pricing cache across filter and page changes -/

theorem lookupPricing_eq_none (m : List (String × PricingRecord)) (k : String) :
    lookupPricing m (some k) = none ↔ ∀ e ∈ m, e.1 ≠ k := by
  simp [lookupPricing, List.find?_eq_none]

theorem mem_foldl_recordPagePricing :
    ∀ (l : List Product) (m : List (String × PricingRecord)) (e : String × PricingRecord),
      e ∈ l.foldl recordPagePricing m →
      e ∈ m ∨ ∃ p ∈ l, p.ingramPartNumber = some e.1 := by
  intro l
  induction l with
  | nil =>
    intro m e he
    exact Or.inl he
  | cons p rest ih =>
    intro m e he
    rcases ih (recordPagePricing m p) e he with hm | ⟨q, hq, hqe⟩
    · cases hpd : p.pricingData with
      | none =>
        simp only [recordPagePricing, hpd] at hm
        exact Or.inl hm
      | some pd =>
        simp only [recordPagePricing, hpd] at hm
        by_cases ht : jsTruthyS p.ingramPartNumber
        · rw [if_pos ht] at hm
          rcases List.mem_append.mp hm with hf | hl
          · exact Or.inl (List.mem_filter.mp hf).1
          · have he' : e = (p.ingramPartNumber.getD "", pd) := by simpa using hl
            refine Or.inr ⟨p, by simp, ?_⟩
            rw [he']
            cases hpn : p.ingramPartNumber with
            | none => rw [hpn] at ht; simp [jsTruthyS] at ht
            | some s => simp [hpn]
        · rw [if_neg ht] at hm
          exact Or.inl hm
    · exact Or.inr ⟨q, by simp [hq], hqe⟩

/-- Counterexample for C9 as stated: a filter change does clear the
pricing cache.  With a record cached under identity "OLDSKU", changing
the category empties `state.pricingData`, so the previously cached record
for that other identity is gone. -/
theorem pricing_cache_counterexample :
    lookupPricing exFilterState.pricingData (some "OLDSKU") ≠ none ∧
    (onFilterChange exFilterState FilterType.category "Monitors").pricingData = [] ∧
    lookupPricing
      (onFilterChange exFilterState FilterType.category "Monitors").pricingData
      (some "OLDSKU") = none := by
  exact ⟨by decide, rfl, rfl⟩

/-- C9 (amended): the pricing cache has no time-based expiry, but it does
not survive filter or page changes: every filter change and manufacturer
change empties it, and displaying a page rebuilds it from scratch out of
that page's attached pricing only, so a record cached for an identity
absent from the displayed page is no longer present afterwards. -/
theorem pricing_cache_reset (st : WidgetState) (v : String) (ft : FilterType)
    (products : List Product) (pg : Pagination) :
    (onFilterChange st ft v).pricingData = [] ∧
    (onManufacturerSelect st v).pricingData = [] ∧
    (∀ k : String, (∀ p ∈ products, p.ingramPartNumber ≠ some k) →
      lookupPricing (displayProductsWithPricing st products pg).pricingData (some k) =
        none) := by
  refine ⟨by cases ft <;> rfl, rfl, ?_⟩
  intro k hk
  rw [lookupPricing_eq_none]
  intro e he hek
  have hmem := mem_foldl_recordPagePricing (products.mergeSort naturalLe) [] e he
  rcases hmem with hm | ⟨p, hp, hpe⟩
  · simp at hm
  · have hpmem : p ∈ products := (List.mergeSort_perm products naturalLe).mem_iff.mp hp
    exact hk p hpmem (hek ▸ hpe)

/-- Witness for C9 (amended): displaying a page consisting only of the
product "A1" (which has no attached pricing) leaves no cached record
under the unrelated identity "ZZZ". -/
theorem pricing_cache_reset_witness :
    (∀ p ∈ [exPartA1], p.ingramPartNumber ≠ some "ZZZ") ∧
    lookupPricing
      (displayProductsWithPricing exFilterState [exPartA1] exPagination).pricingData
      (some "ZZZ") = none :=
  ⟨by decide,
   (pricing_cache_reset exFilterState "x" FilterType.category [exPartA1]
      exPagination).2.2 "ZZZ" (by decide)⟩

/-! ## C10: keyword length threshold -/

/-- C10: when the trimmed sku keyword is shorter than 2 characters,
`loadProducts` omits the keyword parameter entirely and the issued
request is identical to the request with no keyword set; the keyword
constrains the request exactly when its trimmed length is at least 2. -/
theorem loadProducts_keyword_threshold (st : WidgetState) (raw : String) (page : Int) :
    ((jsTrim raw).length < 2 →
      (buildProductsUrl (setSkuKeyword st raw) page).keyword = none ∧
      buildProductsUrl (setSkuKeyword st raw) page =
        buildProductsUrl { st with skuKeyword := "" } page ∧
      (loadProducts (setSkuKeyword st raw) page).2 =
        (loadProducts { st with skuKeyword := "" } page).2) ∧
    (2 ≤ (jsTrim raw).length →
      (buildProductsUrl (setSkuKeyword st raw) page).keyword = some (jsTrim raw)) := by
  constructor
  · intro h
    have hd : ¬ (2 ≤ (jsTrim raw).length) := by omega
    have hurl : buildProductsUrl (setSkuKeyword st raw) page =
        buildProductsUrl { st with skuKeyword := "" } page := by
      simp [buildProductsUrl, setSkuKeyword, hd, jsTruthyS]
    refine ⟨by simp [buildProductsUrl, setSkuKeyword, hd], hurl, ?_⟩
    by_cases hm : st.manufacturer = ""
    · simp [loadProducts, setSkuKeyword, hm]
    · have hbeq : (st.manufacturer == "") = false := by simpa using hm
      simp [loadProducts, setSkuKeyword, hbeq, hurl.symm]
  · intro h
    have hne : jsTrim raw ≠ "" := by
      intro hh
      rw [hh] at h
      simp at h
    have ht : jsTruthyS (some (jsTrim raw)) = true := by
      simp [jsTruthyS, hne]
    simp [buildProductsUrl, setSkuKeyword, ht, h]

/-- Witness for C10: the raw input `" x "` trims to length 1 and is
omitted from the request; `"  ab  "` trims to `"ab"` and is sent. -/
theorem loadProducts_keyword_threshold_witness :
    (jsTrim " x ").length < 2 ∧
    (buildProductsUrl (setSkuKeyword exFilterState " x ") 1).keyword = none ∧
    2 ≤ (jsTrim "  ab  ").length ∧
    (buildProductsUrl (setSkuKeyword exFilterState "  ab  ") 1).keyword = some "ab" := by
  refine ⟨by decide,
    ((loadProducts_keyword_threshold exFilterState " x " 1).1 (by decide)).1,
    by decide, ?_⟩
  have h := (loadProducts_keyword_threshold exFilterState "  ab  " 1).2 (by decide)
  rw [h]
  decide

/-! ## C7: natural sort of the displayed page -/

theorem natCompare_swap (m n : Nat) : compare m n = (compare n m).swap := by
  rcases Nat.lt_trichotomy m n with h | h | h
  · rw [Nat.compare_eq_lt.mpr h, Nat.compare_eq_gt.mpr h]
    rfl
  · subst h
    rw [Nat.compare_eq_eq.mpr rfl]
    rfl
  · rw [Nat.compare_eq_gt.mpr h, Nat.compare_eq_lt.mpr h]
    rfl

theorem tokCmp_swap (a b : SortTok) : tokCmp a b = (tokCmp b a).swap := by
  cases a with
  | num m =>
    cases b with
    | num n => exact natCompare_swap m n
    | chr d => rfl
  | chr c =>
    cases b with
    | num n => rfl
    | chr d => exact natCompare_swap c.toNat d.toNat

theorem tokCmp_eq_left (a b : SortTok) (h : tokCmp a b = Ordering.eq) (c : SortTok) :
    tokCmp a c = tokCmp b c := by
  cases a with
  | num m =>
    cases b with
    | num n =>
      have hmn : m = n := Nat.compare_eq_eq.mp h
      subst hmn
      rfl
    | chr d => exact absurd h (by simp [tokCmp])
  | chr x =>
    cases b with
    | num n => exact absurd h (by simp [tokCmp])
    | chr y =>
      have hxy : x.toNat = y.toNat := Nat.compare_eq_eq.mp h
      cases c with
      | num k => rfl
      | chr z => simp [tokCmp, hxy]

theorem tokCmp_eq_right (a b c : SortTok) (h : tokCmp a b = Ordering.eq) :
    tokCmp c a = tokCmp c b := by
  rw [tokCmp_swap c a, tokCmp_swap c b, tokCmp_eq_left a b h c]

theorem tokCmp_lt_trans {a b c : SortTok} (hab : tokCmp a b = Ordering.lt)
    (hbc : tokCmp b c = Ordering.lt) : tokCmp a c = Ordering.lt := by
  cases a with
  | num m =>
    cases c with
    | num k =>
      cases b with
      | num n =>
        exact Nat.compare_eq_lt.mpr
          (Nat.lt_trans (Nat.compare_eq_lt.mp hab) (Nat.compare_eq_lt.mp hbc))
      | chr y => exact absurd hbc (by simp [tokCmp])
    | chr z => rfl
  | chr x =>
    cases b with
    | num n => exact absurd hab (by simp [tokCmp])
    | chr y =>
      cases c with
      | num k => exact absurd hbc (by simp [tokCmp])
      | chr z =>
        exact Nat.compare_eq_lt.mpr
          (Nat.lt_trans (Nat.compare_eq_lt.mp hab) (Nat.compare_eq_lt.mp hbc))

theorem lexTokCmp_swap : ∀ (as bs : List SortTok), lexTokCmp as bs = (lexTokCmp bs as).swap
  | [], [] => rfl
  | [], _ :: _ => rfl
  | _ :: _, [] => rfl
  | a :: as, b :: bs => by
    simp only [lexTokCmp]
    rw [tokCmp_swap a b]
    cases h : tokCmp b a with
    | lt => rfl
    | eq => exact lexTokCmp_swap as bs
    | gt => rfl

theorem lexTokCmp_eq_left : ∀ (as bs : List SortTok), lexTokCmp as bs = Ordering.eq →
    ∀ (cs : List SortTok), lexTokCmp as cs = lexTokCmp bs cs
  | [], [], _, _ => rfl
  | [], _ :: _, h, _ => absurd h (by simp [lexTokCmp])
  | _ :: _, [], h, _ => absurd h (by simp [lexTokCmp])
  | a :: as, b :: bs, h, cs => by
    have hab : tokCmp a b = Ordering.eq := by
      revert h
      simp only [lexTokCmp]
      cases tokCmp a b <;> simp
    have htail : lexTokCmp as bs = Ordering.eq := by
      revert h
      simp only [lexTokCmp, hab]
      intro h
      exact h
    cases cs with
    | nil => rfl
    | cons c cs' =>
      simp only [lexTokCmp]
      rw [tokCmp_eq_left a b hab c]
      cases hc : tokCmp b c with
      | eq => exact lexTokCmp_eq_left as bs htail cs'
      | lt => rfl
      | gt => rfl

theorem lexTokCmp_eq_right (as bs cs : List SortTok) (h : lexTokCmp as bs = Ordering.eq) :
    lexTokCmp cs as = lexTokCmp cs bs := by
  rw [lexTokCmp_swap cs as, lexTokCmp_swap cs bs, lexTokCmp_eq_left as bs h cs]

theorem lexTokCmp_lt_trans : ∀ (as bs cs : List SortTok),
    lexTokCmp as bs = Ordering.lt → lexTokCmp bs cs = Ordering.lt →
    lexTokCmp as cs = Ordering.lt
  | [], [], _, hab, _ => absurd hab (by simp [lexTokCmp])
  | [], _ :: _, [], _, hbc => absurd hbc (by simp [lexTokCmp])
  | [], _ :: _, _ :: _, _, _ => rfl
  | _ :: _, [], _, hab, _ => absurd hab (by simp [lexTokCmp])
  | _ :: _, _ :: _, [], _, hbc => absurd hbc (by simp [lexTokCmp])
  | a :: as, b :: bs, c :: cs, hab, hbc => by
    simp only [lexTokCmp] at hab hbc ⊢
    cases h1 : tokCmp a b with
    | gt =>
      rw [h1] at hab
      exact absurd hab (by simp)
    | lt =>
      rw [h1] at hab
      cases h2 : tokCmp b c with
      | lt => rw [tokCmp_lt_trans h1 h2]
      | eq =>
        have h3 : tokCmp a c = tokCmp a b := (tokCmp_eq_right b c a h2).symm
        rw [h3, h1]
      | gt =>
        rw [h2] at hbc
        exact absurd hbc (by simp)
    | eq =>
      rw [h1] at hab
      cases h2 : tokCmp b c with
      | lt =>
        rw [tokCmp_eq_left a b h1 c, h2]
      | eq =>
        rw [h2] at hbc
        rw [tokCmp_eq_left a b h1 c, h2]
        exact lexTokCmp_lt_trans as bs cs hab hbc
      | gt =>
        rw [h2] at hbc
        exact absurd hbc (by simp)

theorem naturalLe_total (a b : Product) : (naturalLe a b || naturalLe b a) = true := by
  simp only [naturalLe]
  rw [lexTokCmp_swap (sortKey a) (sortKey b)]
  cases lexTokCmp (sortKey b) (sortKey a) <;> rfl

theorem naturalLe_trans (a b c : Product) (hab : naturalLe a b = true)
    (hbc : naturalLe b c = true) : naturalLe a c = true := by
  simp only [naturalLe] at hab hbc ⊢
  cases h1 : lexTokCmp (sortKey a) (sortKey b) with
  | gt =>
    rw [h1] at hab
    exact absurd hab (by decide)
  | lt =>
    cases h2 : lexTokCmp (sortKey b) (sortKey c) with
    | gt =>
      rw [h2] at hbc
      exact absurd hbc (by decide)
    | lt =>
      rw [lexTokCmp_lt_trans _ _ _ h1 h2]
      rfl
    | eq =>
      have h3 : lexTokCmp (sortKey a) (sortKey c) = lexTokCmp (sortKey a) (sortKey b) :=
        (lexTokCmp_eq_right _ _ _ h2).symm
      rw [h3, h1]
      rfl
  | eq =>
    cases h2 : lexTokCmp (sortKey b) (sortKey c) with
    | gt =>
      rw [h2] at hbc
      exact absurd hbc (by decide)
    | lt =>
      rw [lexTokCmp_eq_left _ _ h1 _, h2]
      rfl
    | eq =>
      rw [lexTokCmp_eq_left _ _ h1 _, h2]
      rfl

/-- C7: on every successful page load the displayed product list is
exactly the response's products sorted by the natural (numeric-aware),
case-insensitive vendor-part-number ordering — the displayed list is a
permutation of the page's products and is sorted under `naturalLe`, in
which maximal digit runs compare by numeric value so that a shorter
numeric run of smaller value sorts first; in particular vendor part
numbers `["A10", "A2", "A1"]` display as `["A1", "A2", "A10"]`. -/
theorem displayProducts_natural_sort (st : WidgetState) (products : List Product)
    (pg : Pagination) :
    (displayProductsWithPricing st products pg).currentProducts.Perm products ∧
    List.Pairwise (fun a b => naturalLe a b = true)
      (displayProductsWithPricing st products pg).currentProducts ∧
    (displayProductsWithPricing emptyState [exPartA10, exPartA2, exPartA1]
        exPagination).currentProducts.map (fun p => jsOrStr p.vendorPartNumber "") =
      ["A1", "A2", "A10"] := by
  refine ⟨List.mergeSort_perm products naturalLe, ?_, ?_⟩
  · exact List.sorted_mergeSort (fun a b c => naturalLe_trans a b c)
      (fun a b => naturalLe_total a b) products
  · have h1 : naturalLe exPartA10 exPartA2 = false := by decide
    have h2 : naturalLe exPartA2 exPartA1 = false := by decide
    show (([exPartA10, exPartA2, exPartA1].mergeSort naturalLe).map
      (fun p => jsOrStr p.vendorPartNumber "")) = ["A1", "A2", "A10"]
    simp [List.mergeSort, List.merge, h1, h2]
    decide
